import Mathlib

/-!
Shallow embedding of the OctopusCopilot query pipeline, covering the
deployment context collector (`domain/transformers/deployments_from_release.py`),
the deployment-log tail budget (`logs_callback` in `function_app.py`), the
streamed error boundary (`copilot_handler_internal`), the tolerant tool-handler
wrappers (`domain/tools/wrapper/*.py`), the dictionary sanitizer
(`domain/sanitizers/dictionary_sanitizer.py`), and query extraction
(`extract_query` in `function_app.py`).

Platform API payloads (releases, deployments, tasks, channels) are modelled as
records; the platform fetchers are oracle functions carried in a context
record, so the number and order of fetches is observable through an explicit
trace in the collector state.  Parsed dates are modelled as integers via an
abstract parse oracle (`parse_unknown_format_date` lives outside `src/`).
-/

namespace OctopusCopilot

/-- An environment or tenant record as resolved by `get_environment_cached` /
`get_tenant_cached`: the code reads only `Id` and `Name`. -/
structure Entity where
  Id : String
  Name : String
deriving Repr, DecidableEq

/-- A release item from `get_project_releases(...)["Items"]`: the collector
reads `Id`, `Version` and `ReleaseNotes`. -/
structure Release where
  Id : String
  Version : String
  ReleaseNotes : String
deriving Repr, DecidableEq

/-- A deployment item from `get_release_deployments(...)["Items"]`.
`TaskId` is `Option String`: `none` models a falsy `deployment.get("TaskId")`
(absent, `None` or empty), which skips the task lookup.  `Created` is the raw
creation-time string; the comparison in the date filter goes through the
abstract parse oracle. -/
structure Deployment where
  Id : String
  TaskId : Option String
  TenantId : String
  ReleaseId : String
  EnvironmentId : String
  ChannelId : String
  Created : String
  DeployedBy : String
deriving Repr, DecidableEq

/-- A task record from `get_task`: the collector reads `State` and `Duration`. -/
structure Task where
  State : String
  Duration : String
deriving Repr, DecidableEq

/-- A channel record from `get_channel_cached`: the collector reads `Name`. -/
structure Channel where
  Name : String
deriving Repr, DecidableEq

/-- The dict built at lines 74-98 of `deployments_from_release.py`, one per
retained deployment. -/
structure DeploymentRecord where
  SpaceId : String
  ProjectId : String
  ProjectName : String
  ReleaseVersion : String
  DeploymentId : String
  TaskId : Option String
  TenantId : String
  TenantName : Option String
  ReleaseId : String
  EnvironmentId : String
  EnvironmentName : Option String
  ChannelId : String
  ChannelName : String
  Created : String
  TaskState : Option String
  TaskDuration : Option String
  ReleaseNotes : String
  DeployedBy : String
deriving Repr, DecidableEq

/-- Everything `get_deployments_for_project` has in scope once the releases
page has been fetched (lines 46-106): the space, the resolved project, the
resolved environment/tenant entity lists, the raw `dates` argument, the result
cap, and the platform/date/url collaborators as oracle functions. -/
structure CollectCtx where
  spaceId : String
  project : Entity
  environments : List Entity
  tenants : List Entity
  dates : List String
  maxResults : Nat
  parseDate : String → Int
  getReleaseDeployments : String → List Deployment
  getTask : String → Task
  getChannel : String → Channel
  stripUrls : String → String

/-- Collector state: the accumulating `deployments` list plus an explicit
trace of the platform work performed (which releases had their deployments
fetched, how many deployments were examined, how many task and channel
lookups ran). -/
structure CollectState where
  deployments : List DeploymentRecord
  releasesFetched : List String
  depsScanned : Nat
  tasksFetched : Nat
  channelsFetched : Nat
deriving Repr, DecidableEq

def initState : CollectState :=
  { deployments := [], releasesFetched := [], depsScanned := 0,
    tasksFetched := 0, channelsFetched := 0 }

/-- Line 52-54: `continue` when the environment list is non-empty and no
entry's `Id` equals the deployment's `EnvironmentId`. -/
def envFilterSkips (environments : List Entity) (d : Deployment) : Bool :=
  environments.length != 0 &&
    (environments.filter (fun x => x.Id == d.EnvironmentId)).length == 0

/-- Line 57-58: same rule for tenants. -/
def tenantFilterSkips (tenants : List Entity) (d : Deployment) : Bool :=
  tenants.length != 0 &&
    (tenants.filter (fun x => x.Id == d.TenantId)).length == 0

/-- Lines 61-67: when `dates` is a (truthy) list of exactly two entries, parse
them and the deployment's creation time and `continue` when the creation time
falls outside `[min, max]`; with any other `dates` value the filter is a
no-op. -/
def dateFilterSkips (parseDate : String → Int) (dates : List String)
    (d : Deployment) : Bool :=
  match dates with
  | [ds1, ds2] =>
    let created := parseDate d.Created
    let date1 := parseDate ds1
    let date2 := parseDate ds2
    created < min date1 date2 || created > max date1 date2
  | _ => false

/-- Modelled from the spec: `get_key_or_none` (from
`domain/sanitizers/sanitized_list.py`, which is not under `src/`) returns the
value stored at a key of the item, or `None`.  Our `Entity` always carries a
`Name`, so on a present item it is `some` of the name.  At its two call sites
the surrounding filter has already passed, so the Python `next(filter(...))`
never raises there and `Option.map` is faithful. -/
def get_key_or_none (item : Option Entity) : Option String :=
  item.map Entity.Name

/-- The record built at lines 74-98: task lookup only when `TaskId` is truthy,
channel lookup always, tenant/environment names looked up by id when the
respective filter list is non-empty, release notes run through
`strip_markdown_urls`. -/
def buildRecord (ctx : CollectCtx) (release : Release) (d : Deployment) :
    DeploymentRecord :=
  let task : Option Task := d.TaskId.map ctx.getTask
  let channel := ctx.getChannel d.ChannelId
  { SpaceId := ctx.spaceId
    ProjectId := ctx.project.Id
    ProjectName := ctx.project.Name
    ReleaseVersion := release.Version
    DeploymentId := d.Id
    TaskId := d.TaskId
    TenantId := d.TenantId
    TenantName :=
      if ctx.tenants.isEmpty then none
      else get_key_or_none (ctx.tenants.find? (fun t => t.Id == d.TenantId))
    ReleaseId := d.ReleaseId
    EnvironmentId := d.EnvironmentId
    EnvironmentName :=
      if ctx.environments.isEmpty then none
      else get_key_or_none
        (ctx.environments.find? (fun e => e.Id == d.EnvironmentId))
    ChannelId := d.ChannelId
    ChannelName := channel.Name
    Created := d.Created
    TaskState := task.map Task.State
    TaskDuration := task.map Task.Duration
    ReleaseNotes := ctx.stripUrls release.ReleaseNotes
    DeployedBy := d.DeployedBy }

/-- One inner-loop iteration examines a deployment. -/
def scanOne (s : CollectState) : CollectState :=
  { s with depsScanned := s.depsScanned + 1 }

/-- Lines 69-98: enrich the current deployment (task lookup when `TaskId` is
truthy, channel lookup always) and append the built record. -/
def appendDeployment (ctx : CollectCtx) (release : Release) (d : Deployment)
    (s : CollectState) : CollectState :=
  { s with
    tasksFetched := s.tasksFetched + (if d.TaskId.isSome then 1 else 0),
    channelsFetched := s.channelsFetched + 1,
    deployments := s.deployments ++ [buildRecord ctx release d] }

/-- The inner `for deployment in release_deployments["Items"]` loop
(lines 50-101): three `continue` filters, then enrichment and append, then
`break` as soon as `len(deployments) >= max_results`. -/
def processDeployments (ctx : CollectCtx) (release : Release) :
    List Deployment → CollectState → CollectState
  | [], s => s
  | d :: ds, s =>
    let s1 := scanOne s
    if envFilterSkips ctx.environments d then
      processDeployments ctx release ds s1
    else if tenantFilterSkips ctx.tenants d then
      processDeployments ctx release ds s1
    else if dateFilterSkips ctx.parseDate ctx.dates d then
      processDeployments ctx release ds s1
    else
      let s2 := appendDeployment ctx release d s1
      if ctx.maxResults ≤ s2.deployments.length then s2
      else processDeployments ctx release ds s2

/-- `get_release_deployments` is called for this release: record the fetch. -/
def pushRelease (r : Release) (s : CollectState) : CollectState :=
  { s with releasesFetched := s.releasesFetched ++ [r.Id] }

/-- The outer `for release in releases["Items"]` loop (lines 47-104): fetch
the release's deployments, run the inner loop, then `break` as soon as
`len(deployments) >= max_results`. -/
def processReleases (ctx : CollectCtx) :
    List Release → CollectState → CollectState
  | [], s => s
  | r :: rs, s =>
    let s1 := processDeployments ctx r (ctx.getReleaseDeployments r.Id)
      (pushRelease r s)
    if ctx.maxResults ≤ s1.deployments.length then s1
    else processReleases ctx rs s1

/-- Lines 46-106 of `deployments_from_release.py`: run both loops from an
empty accumulator and return `{"Deployments": deployments[:max_results]}`
together with the final trace state. -/
def get_deployments_for_project (ctx : CollectCtx) (releases : List Release) :
    List DeploymentRecord × CollectState :=
  let final := processReleases ctx releases initState
  (final.deployments.take ctx.maxResults, final)

/-! ### Unfolding and helper lemmas -/

lemma bool_ne_true {b : Bool} (h : ¬ b = true) : b = false := by
  cases b
  · rfl
  · exact absurd rfl h

lemma processDeployments_cons (ctx : CollectCtx) (release : Release)
    (d : Deployment) (ds : List Deployment) (s : CollectState) :
    processDeployments ctx release (d :: ds) s
      = if envFilterSkips ctx.environments d then
          processDeployments ctx release ds (scanOne s)
        else if tenantFilterSkips ctx.tenants d then
          processDeployments ctx release ds (scanOne s)
        else if dateFilterSkips ctx.parseDate ctx.dates d then
          processDeployments ctx release ds (scanOne s)
        else if ctx.maxResults ≤
            (appendDeployment ctx release d (scanOne s)).deployments.length then
          appendDeployment ctx release d (scanOne s)
        else
          processDeployments ctx release ds
            (appendDeployment ctx release d (scanOne s)) := rfl

lemma processReleases_cons (ctx : CollectCtx) (r : Release) (rs : List Release)
    (s : CollectState) :
    processReleases ctx (r :: rs) s
      = if ctx.maxResults ≤
            (processDeployments ctx r (ctx.getReleaseDeployments r.Id)
              (pushRelease r s)).deployments.length then
          processDeployments ctx r (ctx.getReleaseDeployments r.Id)
            (pushRelease r s)
        else
          processReleases ctx rs
            (processDeployments ctx r (ctx.getReleaseDeployments r.Id)
              (pushRelease r s)) := rfl

/-- Every channel lookup corresponds to exactly one appended record, so the
channel-fetch counter tracks the accumulated list length through the inner
loop. -/
lemma processDeployments_channels (ctx : CollectCtx) (release : Release)
    (dl : List Deployment) :
    ∀ s : CollectState, s.channelsFetched = s.deployments.length →
      (processDeployments ctx release dl s).channelsFetched
        = (processDeployments ctx release dl s).deployments.length := by
  induction dl with
  | nil => intro s h; exact h
  | cons d ds ih =>
    intro s h
    have hscan : (scanOne s).channelsFetched = (scanOne s).deployments.length := h
    have happ : (appendDeployment ctx release d (scanOne s)).channelsFetched
        = (appendDeployment ctx release d (scanOne s)).deployments.length := by
      simp [appendDeployment, scanOne, h]
    rw [processDeployments_cons]
    by_cases h1 : envFilterSkips ctx.environments d = true
    · rw [if_pos h1]; exact ih _ hscan
    · rw [if_neg h1]
      by_cases h2 : tenantFilterSkips ctx.tenants d = true
      · rw [if_pos h2]; exact ih _ hscan
      · rw [if_neg h2]
        by_cases h3 : dateFilterSkips ctx.parseDate ctx.dates d = true
        · rw [if_pos h3]; exact ih _ hscan
        · rw [if_neg h3]
          by_cases h4 : ctx.maxResults ≤
              (appendDeployment ctx release d (scanOne s)).deployments.length
          · rw [if_pos h4]; exact happ
          · rw [if_neg h4]; exact ih _ happ

lemma processReleases_channels (ctx : CollectCtx) (rl : List Release) :
    ∀ s : CollectState, s.channelsFetched = s.deployments.length →
      (processReleases ctx rl s).channelsFetched
        = (processReleases ctx rl s).deployments.length := by
  induction rl with
  | nil => intro s h; exact h
  | cons r rs ih =>
    intro s h
    have hpush : (pushRelease r s).channelsFetched
        = (pushRelease r s).deployments.length := h
    have hinner := processDeployments_channels ctx r
      (ctx.getReleaseDeployments r.Id) (pushRelease r s) hpush
    rw [processReleases_cons]
    by_cases h4 : ctx.maxResults ≤
        (processDeployments ctx r (ctx.getReleaseDeployments r.Id)
          (pushRelease r s)).deployments.length
    · rw [if_pos h4]; exact hinner
    · rw [if_neg h4]; exact ih _ hinner

/-! ### Helper lemmas about the filters -/

lemma envFilterSkips_eq_false_iff (envs : List Entity) (d : Deployment) :
    envFilterSkips envs d = false ↔
      (envs = [] ∨ d.EnvironmentId ∈ envs.map Entity.Id) := by
  simp only [envFilterSkips, Bool.and_eq_false_iff, bne_eq_false_iff_eq,
    beq_eq_false_iff_ne, ne_eq, beq_iff_eq, List.length_eq_zero,
    List.filter_eq_nil_iff, List.mem_map]
  constructor
  · rintro (h | h)
    · exact Or.inl h
    · by_cases hnil : envs = []
      · exact Or.inl hnil
      · rcases not_forall.mp h with ⟨y, hy⟩
        rcases Classical.not_imp.mp hy with ⟨hy1, hy2⟩
        exact Or.inr ⟨y, hy1, not_not.mp hy2⟩
  · rintro (h | ⟨x, hx, hid⟩)
    · exact Or.inl h
    · exact Or.inr (fun hall => (hall x hx) hid)

lemma tenantFilterSkips_eq_false_iff (tens : List Entity) (d : Deployment) :
    tenantFilterSkips tens d = false ↔
      (tens = [] ∨ d.TenantId ∈ tens.map Entity.Id) := by
  simp only [tenantFilterSkips, Bool.and_eq_false_iff, bne_eq_false_iff_eq,
    beq_eq_false_iff_ne, ne_eq, beq_iff_eq, List.length_eq_zero,
    List.filter_eq_nil_iff, List.mem_map]
  constructor
  · rintro (h | h)
    · exact Or.inl h
    · by_cases hnil : tens = []
      · exact Or.inl hnil
      · rcases not_forall.mp h with ⟨y, hy⟩
        rcases Classical.not_imp.mp hy with ⟨hy1, hy2⟩
        exact Or.inr ⟨y, hy1, not_not.mp hy2⟩
  · rintro (h | ⟨x, hx, hid⟩)
    · exact Or.inl h
    · exact Or.inr (fun hall => (hall x hx) hid)

/-! ### Claim theorems about the filters and the cap -/

/-- C4: a deployment passes the environment filter exactly when the requested
environment set is empty or contains its environment id; the tenant filter
applies the same rule independently; an empty filter set always keeps the
deployment (never filter-to-nothing). -/
theorem env_tenant_filters_keep_iff (envs tens : List Entity) (d : Deployment) :
    (envFilterSkips envs d = false ↔
      (envs = [] ∨ d.EnvironmentId ∈ envs.map Entity.Id))
    ∧ (tenantFilterSkips tens d = false ↔
      (tens = [] ∨ d.TenantId ∈ tens.map Entity.Id))
    ∧ envFilterSkips [] d = false ∧ tenantFilterSkips [] d = false := by
  refine ⟨envFilterSkips_eq_false_iff envs d,
    tenantFilterSkips_eq_false_iff tens d, ?_, ?_⟩ <;> rfl

/-- C1: the returned `Deployments` list never exceeds `max_results`, and the
cap exits early across both loops: as soon as the state after a release
reaches the cap the remaining releases are not fetched, and as soon as an
appended deployment reaches the cap the remaining deployments of the current
release are not scanned. -/
theorem cap_bounds_results_and_exits_early (ctx : CollectCtx)
    (releases : List Release) :
    (get_deployments_for_project ctx releases).1.length ≤ ctx.maxResults
    ∧ (∀ (r : Release) (rs : List Release) (s : CollectState),
        ctx.maxResults ≤
          (processDeployments ctx r (ctx.getReleaseDeployments r.Id)
            (pushRelease r s)).deployments.length →
        processReleases ctx (r :: rs) s
          = processDeployments ctx r (ctx.getReleaseDeployments r.Id)
              (pushRelease r s))
    ∧ (∀ (release : Release) (d : Deployment) (ds : List Deployment)
        (s : CollectState),
        envFilterSkips ctx.environments d = false →
        tenantFilterSkips ctx.tenants d = false →
        dateFilterSkips ctx.parseDate ctx.dates d = false →
        ctx.maxResults ≤
          (appendDeployment ctx release d (scanOne s)).deployments.length →
        processDeployments ctx release (d :: ds) s
          = appendDeployment ctx release d (scanOne s)) := by
  refine ⟨?_, ?_, ?_⟩
  · simp only [get_deployments_for_project]
    exact List.length_take_le _ _
  · intro r rs s h
    simp only [processReleases]
    rw [if_pos h]
  · intro release d ds s h1 h2 h3 h4
    simp only [processDeployments, h1, h2, h3, Bool.false_eq_true, if_false]
    rw [if_pos h4]

/-! ### Concrete inputs used by witnesses -/

def exDep : Deployment :=
  { Id := "Deployments-1", TaskId := some "ServerTasks-1", TenantId := "Tenants-1",
    ReleaseId := "Releases-1", EnvironmentId := "Environments-1",
    ChannelId := "Channels-1", Created := "2024-01-05", DeployedBy := "alice" }

def exRelease : Release :=
  { Id := "Releases-1", Version := "1.0.0", ReleaseNotes := "first" }

def exRelease2 : Release :=
  { Id := "Releases-2", Version := "2.0.0", ReleaseNotes := "second" }

def exCtx : CollectCtx :=
  { spaceId := "Spaces-1", project := ⟨"Projects-1", "WebApp"⟩,
    environments := [], tenants := [], dates := [], maxResults := 1,
    parseDate := fun _ => 0,
    getReleaseDeployments := fun _ => [exDep],
    getTask := fun _ => ⟨"Success", "00:01:00"⟩,
    getChannel := fun _ => ⟨"Default"⟩,
    stripUrls := fun s => s }

/-- Witness for C1 at a concrete context: the cap is reached after the first
release, so the second release is never fetched, and after the first appended
deployment, so no further deployment is scanned. -/
theorem cap_bounds_results_and_exits_early_witness :
    (get_deployments_for_project exCtx [exRelease]).1.length ≤ exCtx.maxResults
    ∧ processReleases exCtx [exRelease, exRelease2] initState
        = processDeployments exCtx exRelease
            (exCtx.getReleaseDeployments exRelease.Id)
            (pushRelease exRelease initState)
    ∧ processDeployments exCtx exRelease [exDep, exDep] initState
        = appendDeployment exCtx exRelease exDep (scanOne initState) :=
  ⟨(cap_bounds_results_and_exits_early exCtx [exRelease]).1,
   (cap_bounds_results_and_exits_early exCtx []).2.1 exRelease [exRelease2]
     initState (by decide),
   (cap_bounds_results_and_exits_early exCtx []).2.2 exRelease exDep [exDep]
     initState (by decide) (by decide) (by decide) (by decide)⟩

/-- A context whose result cap is zero: the first passing deployment is still
fully enriched before the cap check sees it. -/
def exCtxCap0 : CollectCtx := { exCtx with maxResults := 0 }

/-- C7: enrichment always happens before the cap check for the current item —
the channel-lookup counter equals the number of records the loop built — so
while the cap is a hard upper bound on returned items, it is not a bound on
work performed: there is an input on which more enrichment lookups run than
the cap allows, and the extra enriched item is discarded by the final
truncation. -/
theorem enrichment_precedes_cap_check :
    (∀ (ctx : CollectCtx) (releases : List Release),
      (get_deployments_for_project ctx releases).1.length ≤ ctx.maxResults)
    ∧ (∀ (ctx : CollectCtx) (releases : List Release),
      ((get_deployments_for_project ctx releases).2).channelsFetched
        = ((get_deployments_for_project ctx releases).2).deployments.length)
    ∧ (∃ (ctx : CollectCtx) (releases : List Release),
      ctx.maxResults
          < ((get_deployments_for_project ctx releases).2).channelsFetched
      ∧ (get_deployments_for_project ctx releases).1.length
          < ((get_deployments_for_project ctx releases).2).deployments.length) := by
  refine ⟨?_, ?_, ?_⟩
  · intro ctx releases
    simp only [get_deployments_for_project]
    exact List.length_take_le _ _
  · intro ctx releases
    simp only [get_deployments_for_project]
    exact processReleases_channels ctx releases initState rfl
  · exact ⟨exCtxCap0, [exRelease], by decide, by decide⟩

/-! ### Date filter: inclusivity and symmetry -/

lemma dateFilterSkips_pair_eq_false_iff (p : String → Int) (a b : String)
    (d : Deployment) :
    dateFilterSkips p [a, b] d = false ↔
      (min (p a) (p b) ≤ p d.Created ∧ p d.Created ≤ max (p a) (p b)) := by
  simp only [dateFilterSkips, Bool.or_eq_false_iff, decide_eq_false_iff_not,
    not_lt, gt_iff_lt]

lemma dateFilterSkips_swap (p : String → Int) (a b : String) (d : Deployment) :
    dateFilterSkips p [b, a] d = dateFilterSkips p [a, b] d := by
  simp only [dateFilterSkips]
  rw [min_comm, max_comm]

/-! ### Congruence: the loops depend only on the fields they read -/

lemma appendDeployment_congr {ctx ctx' : CollectCtx} {r : Release}
    {d : Deployment} (hbuild : buildRecord ctx' r d = buildRecord ctx r d)
    (s : CollectState) :
    appendDeployment ctx' r d s = appendDeployment ctx r d s := by
  simp [appendDeployment, hbuild]

lemma processDeployments_congr (ctx ctx' : CollectCtx) (r : Release)
    (henv : ctx'.environments = ctx.environments)
    (hten : ctx'.tenants = ctx.tenants)
    (hmax : ctx'.maxResults = ctx.maxResults)
    (hdate : ∀ d, dateFilterSkips ctx'.parseDate ctx'.dates d
      = dateFilterSkips ctx.parseDate ctx.dates d)
    (dl : List Deployment) :
    ∀ s : CollectState,
      (∀ d ∈ dl, buildRecord ctx' r d = buildRecord ctx r d) →
      processDeployments ctx' r dl s = processDeployments ctx r dl s := by
  induction dl with
  | nil => intro s _; rfl
  | cons d ds ih =>
    intro s hbuild
    have hbuild_d : buildRecord ctx' r d = buildRecord ctx r d :=
      hbuild d (List.mem_cons_self d ds)
    have hbuild_ds : ∀ x ∈ ds, buildRecord ctx' r x = buildRecord ctx r x :=
      fun x hx => hbuild x (List.mem_cons_of_mem d hx)
    rw [processDeployments_cons, processDeployments_cons, henv, hten, hmax,
      hdate d, appendDeployment_congr hbuild_d]
    by_cases h1 : envFilterSkips ctx.environments d = true
    · rw [if_pos h1, if_pos h1, ih _ hbuild_ds]
    · rw [if_neg h1, if_neg h1]
      by_cases h2 : tenantFilterSkips ctx.tenants d = true
      · rw [if_pos h2, if_pos h2, ih _ hbuild_ds]
      · rw [if_neg h2, if_neg h2]
        by_cases h3 : dateFilterSkips ctx.parseDate ctx.dates d = true
        · rw [if_pos h3, if_pos h3, ih _ hbuild_ds]
        · rw [if_neg h3, if_neg h3]
          by_cases h4 : ctx.maxResults ≤
              (appendDeployment ctx r d (scanOne s)).deployments.length
          · rw [if_pos h4, if_pos h4]
          · rw [if_neg h4, if_neg h4, ih _ hbuild_ds]

lemma processReleases_congr (ctx ctx' : CollectCtx)
    (henv : ctx'.environments = ctx.environments)
    (hten : ctx'.tenants = ctx.tenants)
    (hmax : ctx'.maxResults = ctx.maxResults)
    (hfetch : ctx'.getReleaseDeployments = ctx.getReleaseDeployments)
    (hdate : ∀ d, dateFilterSkips ctx'.parseDate ctx'.dates d
      = dateFilterSkips ctx.parseDate ctx.dates d)
    (rl : List Release) :
    ∀ s : CollectState,
      (∀ r ∈ rl, ∀ d ∈ ctx.getReleaseDeployments r.Id,
        buildRecord ctx' r d = buildRecord ctx r d) →
      processReleases ctx' rl s = processReleases ctx rl s := by
  induction rl with
  | nil => intro s _; rfl
  | cons r rs ih =>
    intro s hbuild
    have hinner : processDeployments ctx' r (ctx.getReleaseDeployments r.Id)
        (pushRelease r s) = processDeployments ctx r
          (ctx.getReleaseDeployments r.Id) (pushRelease r s) :=
      processDeployments_congr ctx ctx' r henv hten hmax hdate _ _
        (fun d hd => hbuild r (List.mem_cons_self r rs) d hd)
    rw [processReleases_cons, processReleases_cons, hfetch, hmax, hinner]
    by_cases h4 : ctx.maxResults ≤
        (processDeployments ctx r (ctx.getReleaseDeployments r.Id)
          (pushRelease r s)).deployments.length
    · rw [if_pos h4, if_pos h4]
    · rw [if_neg h4, if_neg h4,
        ih _ (fun x hx d hd => hbuild x (List.mem_cons_of_mem r hx) d hd)]

/-! ### Invariant: every accumulated record comes from a passing deployment -/

lemma processDeployments_forall (ctx : CollectCtx) (release : Release)
    (Q : DeploymentRecord → Prop) (dl : List Deployment) :
    ∀ s : CollectState,
      (∀ d ∈ dl,
        envFilterSkips ctx.environments d = false →
        tenantFilterSkips ctx.tenants d = false →
        dateFilterSkips ctx.parseDate ctx.dates d = false →
        Q (buildRecord ctx release d)) →
      (∀ rec ∈ s.deployments, Q rec) →
      ∀ rec ∈ (processDeployments ctx release dl s).deployments, Q rec := by
  induction dl with
  | nil => intro s _ hs; exact hs
  | cons d ds ih =>
    intro s hdl hs
    have hds : ∀ x ∈ ds,
        envFilterSkips ctx.environments x = false →
        tenantFilterSkips ctx.tenants x = false →
        dateFilterSkips ctx.parseDate ctx.dates x = false →
        Q (buildRecord ctx release x) :=
      fun x hx => hdl x (List.mem_cons_of_mem d hx)
    rw [processDeployments_cons]
    by_cases h1 : envFilterSkips ctx.environments d = true
    · rw [if_pos h1]; exact ih _ hds hs
    · rw [if_neg h1]
      by_cases h2 : tenantFilterSkips ctx.tenants d = true
      · rw [if_pos h2]; exact ih _ hds hs
      · rw [if_neg h2]
        by_cases h3 : dateFilterSkips ctx.parseDate ctx.dates d = true
        · rw [if_pos h3]; exact ih _ hds hs
        · rw [if_neg h3]
          have hQd : Q (buildRecord ctx release d) :=
            hdl d (List.mem_cons_self d ds) (bool_ne_true h1)
              (bool_ne_true h2) (bool_ne_true h3)
          have happ : ∀ rec ∈
              (appendDeployment ctx release d (scanOne s)).deployments, Q rec := by
            intro rec hrec
            simp only [appendDeployment, scanOne, List.mem_append,
              List.mem_singleton] at hrec
            rcases hrec with hrec | hrec
            · exact hs rec hrec
            · exact hrec ▸ hQd
          by_cases h4 : ctx.maxResults ≤
              (appendDeployment ctx release d (scanOne s)).deployments.length
          · rw [if_pos h4]; exact happ
          · rw [if_neg h4]; exact ih _ hds happ

lemma processReleases_forall (ctx : CollectCtx) (Q : DeploymentRecord → Prop)
    (rl : List Release) :
    ∀ s : CollectState,
      (∀ r ∈ rl, ∀ d ∈ ctx.getReleaseDeployments r.Id,
        envFilterSkips ctx.environments d = false →
        tenantFilterSkips ctx.tenants d = false →
        dateFilterSkips ctx.parseDate ctx.dates d = false →
        Q (buildRecord ctx r d)) →
      (∀ rec ∈ s.deployments, Q rec) →
      ∀ rec ∈ (processReleases ctx rl s).deployments, Q rec := by
  induction rl with
  | nil => intro s _ hs; exact hs
  | cons r rs ih =>
    intro s hrl hs
    have hinner := processDeployments_forall ctx r Q
      (ctx.getReleaseDeployments r.Id) (pushRelease r s)
      (fun d hd => hrl r (List.mem_cons_self r rs) d hd) hs
    rw [processReleases_cons]
    by_cases h4 : ctx.maxResults ≤
        (processDeployments ctx r (ctx.getReleaseDeployments r.Id)
          (pushRelease r s)).deployments.length
    · rw [if_pos h4]; exact hinner
    · rw [if_neg h4]
      exact ih _ (fun x hx d hd => hrl x (List.mem_cons_of_mem r hx) d hd) hinner

/-- C2: with exactly two dates the filter keeps a deployment iff its parsed
creation time lies in the closed interval `[min, max]` of the two parsed
dates; swapping the two dates yields an identical result; and every returned
record's creation time lies in that closed interval. -/
theorem date_range_inclusive_and_order_independent (ctx : CollectCtx)
    (releases : List Release) (a b : String) (d : Deployment) :
    (dateFilterSkips ctx.parseDate [a, b] d = false ↔
      (min (ctx.parseDate a) (ctx.parseDate b) ≤ ctx.parseDate d.Created
       ∧ ctx.parseDate d.Created ≤ max (ctx.parseDate a) (ctx.parseDate b)))
    ∧ get_deployments_for_project { ctx with dates := [a, b] } releases
        = get_deployments_for_project { ctx with dates := [b, a] } releases
    ∧ (∀ rec ∈ (get_deployments_for_project { ctx with dates := [a, b] }
          releases).1,
        min (ctx.parseDate a) (ctx.parseDate b) ≤ ctx.parseDate rec.Created
        ∧ ctx.parseDate rec.Created ≤ max (ctx.parseDate a) (ctx.parseDate b)) := by
  refine ⟨dateFilterSkips_pair_eq_false_iff ctx.parseDate a b d, ?_, ?_⟩
  · have hpr : processReleases { ctx with dates := [b, a] } releases initState
        = processReleases { ctx with dates := [a, b] } releases initState :=
      processReleases_congr { ctx with dates := [a, b] }
        { ctx with dates := [b, a] } rfl rfl rfl rfl
        (fun x => dateFilterSkips_swap ctx.parseDate a b x) releases initState
        (fun _ _ _ _ => rfl)
    simp only [get_deployments_for_project, hpr]
  · intro rec hrec
    have hfull : rec ∈ (processReleases { ctx with dates := [a, b] } releases
        initState).deployments := by
      simp only [get_deployments_for_project] at hrec
      exact List.take_subset _ _ hrec
    refine processReleases_forall { ctx with dates := [a, b] }
      (fun rec => min (ctx.parseDate a) (ctx.parseDate b)
          ≤ ctx.parseDate rec.Created
        ∧ ctx.parseDate rec.Created
          ≤ max (ctx.parseDate a) (ctx.parseDate b))
      releases initState ?_ (by intro x hx; cases hx) rec hfull
    intro r _ d' _ _ _ h3
    exact (dateFilterSkips_pair_eq_false_iff ctx.parseDate a b d').mp h3

/-! ### Purity: the collector is a function of the fetched stream + criteria -/

lemma buildRecord_oracle (ctx : CollectCtx) (gt' : String → Task)
    (gc' : String → Channel) (r : Release) (d : Deployment)
    (ht : ∀ tid, d.TaskId = some tid → gt' tid = ctx.getTask tid)
    (hc : gc' d.ChannelId = ctx.getChannel d.ChannelId) :
    buildRecord { ctx with getTask := gt', getChannel := gc' } r d
      = buildRecord ctx r d := by
  cases htask : d.TaskId with
  | none => simp [buildRecord, htask, hc]
  | some tid => simp [buildRecord, htask, hc, ht tid htask]

/-- C8: the collector is a pure function of the fetched release/deployment
stream plus the filter criteria.  It consumes the platform payloads only
through reads: replacing the task/channel oracles by any oracles that agree
on the ids actually present in the stream leaves the result (and the whole
work trace) unchanged, and every returned record is a freshly built
`DeploymentRecord` derived from a release and a deployment of the stream —
the source payloads are never written. -/
theorem pure_function_of_stream_and_criteria (ctx : CollectCtx)
    (gt' : String → Task) (gc' : String → Channel) (releases : List Release)
    (ht : ∀ r ∈ releases, ∀ d ∈ ctx.getReleaseDeployments r.Id,
      ∀ tid, d.TaskId = some tid → gt' tid = ctx.getTask tid)
    (hc : ∀ r ∈ releases, ∀ d ∈ ctx.getReleaseDeployments r.Id,
      gc' d.ChannelId = ctx.getChannel d.ChannelId) :
    get_deployments_for_project { ctx with getTask := gt', getChannel := gc' }
        releases
      = get_deployments_for_project ctx releases
    ∧ ∀ rec ∈ (get_deployments_for_project ctx releases).1,
        ∃ r ∈ releases, ∃ d ∈ ctx.getReleaseDeployments r.Id,
          rec = buildRecord ctx r d := by
  constructor
  · have hpr := processReleases_congr ctx
      { ctx with getTask := gt', getChannel := gc' } rfl rfl rfl rfl
      (fun _ => rfl) releases initState
      (fun r hr d hd => buildRecord_oracle ctx gt' gc' r d
        (ht r hr d hd) (hc r hr d hd))
    simp only [get_deployments_for_project, hpr]
  · intro rec hrec
    have hfull : rec ∈ (processReleases ctx releases initState).deployments := by
      simp only [get_deployments_for_project] at hrec
      exact List.take_subset _ _ hrec
    refine processReleases_forall ctx
      (fun rec => ∃ r ∈ releases, ∃ d ∈ ctx.getReleaseDeployments r.Id,
        rec = buildRecord ctx r d)
      releases initState ?_ (by intro x hx; cases hx) rec hfull
    intro r hr d' hd' _ _ _
    exact ⟨r, hr, d', hd', rfl⟩

/-- Witness for C8 at a concrete context with oracles that agree on the
stream. -/
theorem pure_function_of_stream_and_criteria_witness :
    get_deployments_for_project
        { exCtx with getTask := exCtx.getTask, getChannel := exCtx.getChannel }
        [exRelease]
      = get_deployments_for_project exCtx [exRelease]
    ∧ ∀ rec ∈ (get_deployments_for_project exCtx [exRelease]).1,
        ∃ r ∈ [exRelease], ∃ d ∈ exCtx.getReleaseDeployments r.Id,
          rec = buildRecord exCtx r d :=
  pure_function_of_stream_and_criteria exCtx exCtx.getTask exCtx.getChannel
    [exRelease] (fun _ _ _ _ _ _ => rfl) (fun _ _ _ _ => rfl)

/-- Witness for C2 at a concrete context and the two dates of spec
Scenario C. -/
theorem date_range_inclusive_and_order_independent_witness :
    (dateFilterSkips exCtx.parseDate ["2024-01-01", "2024-01-10"] exDep = false ↔
      (min (exCtx.parseDate "2024-01-01") (exCtx.parseDate "2024-01-10")
          ≤ exCtx.parseDate exDep.Created
       ∧ exCtx.parseDate exDep.Created
          ≤ max (exCtx.parseDate "2024-01-01") (exCtx.parseDate "2024-01-10")))
    ∧ get_deployments_for_project
        { exCtx with dates := ["2024-01-01", "2024-01-10"] } [exRelease]
      = get_deployments_for_project
        { exCtx with dates := ["2024-01-10", "2024-01-01"] } [exRelease]
    ∧ (∀ rec ∈ (get_deployments_for_project
          { exCtx with dates := ["2024-01-01", "2024-01-10"] } [exRelease]).1,
        min (exCtx.parseDate "2024-01-01") (exCtx.parseDate "2024-01-10")
            ≤ exCtx.parseDate rec.Created
        ∧ exCtx.parseDate rec.Created
            ≤ max (exCtx.parseDate "2024-01-01") (exCtx.parseDate "2024-01-10")) :=
  date_range_inclusive_and_order_independent exCtx [exRelease]
    "2024-01-01" "2024-01-10" exDep

/-! ### Log tail truncation (`logs_callback`, `function_app.py` lines 829-838) -/

/-- Python's `s[-n:]` on a sequence: with `n = 0` the slice is the whole
sequence (`s[-0:]` is `s[0:]`); with `n > 0` it starts at `max(len(s)-n, 0)`,
which is `List.drop (s.length - n)` under truncated `Nat` subtraction. -/
def pyTailSlice (n : Nat) (s : List Char) : List Char :=
  if n = 0 then s else s.drop (s.length - n)

/-- The context dict built by `logs_callback`:
`logs = logs[-max_chars:]` then `{"input": processed_query, "context": logs}`.
Logs are modelled as character lists. -/
structure LogsContext where
  input : String
  context : List Char
deriving Repr, DecidableEq

def logs_callback_context (max_chars : Nat) (processed_query : String)
    (logs : List Char) : LogsContext :=
  { input := processed_query, context := pyTailSlice max_chars logs }

/-- C3: with a positive character budget `B = max_chars`, a log of length
`L ≤ B` is kept unchanged, and a log of length `L > B` is cut to exactly its
final `B` characters (a length-`B` suffix).  `max_chars` itself is defined in
`domain/context/octopus_context.py`, which is not under `src/`; per the spec
it is a fixed positive character budget. -/
theorem log_tail_truncation (B : Nat) (q : String) (logs : List Char)
    (h : 0 < B) :
    (logs.length ≤ B → (logs_callback_context B q logs).context = logs)
    ∧ (B < logs.length →
        (logs_callback_context B q logs).context.length = B
        ∧ logs.take (logs.length - B)
            ++ (logs_callback_context B q logs).context = logs) := by
  have hB : ¬ B = 0 := Nat.pos_iff_ne_zero.mp h
  constructor
  · intro hLB
    simp only [logs_callback_context, pyTailSlice, if_neg hB]
    rw [Nat.sub_eq_zero_of_le hLB, List.drop_zero]
  · intro hBL
    constructor
    · simp only [logs_callback_context, pyTailSlice, if_neg hB,
        List.length_drop]
      omega
    · simp only [logs_callback_context, pyTailSlice, if_neg hB]
      exact List.take_append_drop _ _

/-- Witness for C3: budget 3 on a six-character log keeps exactly the last
three characters. -/
theorem log_tail_truncation_witness :
    (logs_callback_context 3 "q" ['a', 'b', 'c', 'd', 'e', 'f']).context.length = 3
    ∧ ['a', 'b', 'c', 'd', 'e', 'f'].take
          (['a', 'b', 'c', 'd', 'e', 'f'].length - 3)
        ++ (logs_callback_context 3 "q" ['a', 'b', 'c', 'd', 'e', 'f']).context
      = ['a', 'b', 'c', 'd', 'e', 'f'] :=
  (log_tail_truncation 3 "q" ['a', 'b', 'c', 'd', 'e', 'f'] (by decide)).2
    (by decide)

/-! ### Streamed responses and the error boundary
(`copilot_handler_internal`, `function_app.py` lines 960-1077) -/

/-- An Azure Functions `HttpResponse` as used by the handler: a body, a
status code (200 unless set), and the header list. -/
structure HttpResponse where
  body : String
  status : Nat
  headers : List (String × String)
deriving Repr, DecidableEq

/-- `get_sse_headers` (lines 1056-1060). -/
def get_sse_headers : List (String × String) :=
  [("Content-Type", "text/event-stream"), ("Cache-Control", "no-cache")]

/-- Modelled from the spec: `convert_to_sse_response`
(`domain/transformers/sse_transformers.py`, not under `src/`) wraps the final
answer text in an event-stream frame. -/
def convert_to_sse_response (message : String) : String :=
  "data: " ++ message ++ "\n\n"

/-- Modelled from the spec: `NO_FUNCTION_RESPONSE` (`infrastructure/openai.py`,
not under `src/`) is the fixed message surfaced for a content-filtered
(`ValueError`) completion. -/
def NO_FUNCTION_RESPONSE : String :=
  "Sorry, I did not understand that request."

/-- `request_config_details` (lines 1063-1077): normally a 200 SSE response
asking the user to log in (the login URL is built from two environment
values); if building it raises, the except branch returns a 500 response that
is still an SSE frame with the SSE headers.  `envOk` selects the branch. -/
def request_config_details (envOk : Bool) (clientId redirectUrl : String) :
    HttpResponse :=
  if envOk then
    { body := convert_to_sse_response
        ("To continue chatting please [log in](https://github.com/login/oauth/authorize?client_id="
          ++ clientId ++ "&redirect_url=" ++ redirectUrl
          ++ "&scope=user&allow_signup=false)"),
      status := 200, headers := get_sse_headers }
  else
    { body := "data: An exception was raised. See the logs for more details.\n\n",
      status := 500, headers := get_sse_headers }

/-- The exception taxonomy caught at lines 976-1016. -/
inductive HandlerErr where
  | userNotLoggedIn
  | octopusRequestFailed
  | gitHubRequestFailed
  | notAuthorized
  | spaceNotFound (space_name : String)
  | resourceNotFound (resource_type resource_name : String)
  | userNotConfigured
  | octopusApiKeyInvalid
  | valueError
  | otherException
deriving Repr, DecidableEq

/-- The `except` chain of `copilot_handler_internal` (lines 976-1016): every
taxonomy member is rendered as an `HttpResponse` over an SSE body with the
SSE headers. -/
def copilot_error_response (e : HandlerErr) (envOk : Bool)
    (clientId redirectUrl : String) : HttpResponse :=
  match e with
  | HandlerErr.userNotLoggedIn =>
    { body := convert_to_sse_response "Your GitHub token is invalid.",
      status := 200, headers := get_sse_headers }
  | HandlerErr.octopusRequestFailed =>
    { body := convert_to_sse_response
        ("The request to the Octopus API failed. "
          ++ "Either your API key is invalid, or there was an issue contacting the server."),
      status := 200, headers := get_sse_headers }
  | HandlerErr.gitHubRequestFailed =>
    { body := convert_to_sse_response
        ("The request to the GitHub API failed. "
          ++ "Your GitHub token is likely to be invalid."),
      status := 200, headers := get_sse_headers }
  | HandlerErr.notAuthorized =>
    { body := convert_to_sse_response "You are not authorized.",
      status := 200, headers := get_sse_headers }
  | HandlerErr.spaceNotFound name =>
    { body := convert_to_sse_response
        ("The space \"" ++ name ++ "\" was not found. "
          ++ "Either the space does not exist or the API key does not "
          ++ "have permissions to access it."),
      status := 200, headers := get_sse_headers }
  | HandlerErr.resourceNotFound ty name =>
    { body := convert_to_sse_response
        ("The " ++ ty ++ " \"" ++ name ++ "\" was not found. "
          ++ "Either the resource does not exist or the API key does not "
          ++ "have permissions to access it."),
      status := 200, headers := get_sse_headers }
  | HandlerErr.userNotConfigured => request_config_details envOk clientId redirectUrl
  | HandlerErr.octopusApiKeyInvalid => request_config_details envOk clientId redirectUrl
  | HandlerErr.valueError =>
    { body := convert_to_sse_response NO_FUNCTION_RESPONSE,
      status := 200, headers := get_sse_headers }
  | HandlerErr.otherException =>
    { body := convert_to_sse_response
        "An unexpected error was thrown. This error has been logged. I'm sorry for the inconvenience.",
      status := 200, headers := get_sse_headers }

/-- C5: every member of the error taxonomy yields a well-formed streamed
response: the SSE headers are always attached and the body is always a single
event-stream frame — never a bare failure, in either branch of
`request_config_details`. -/
theorem error_taxonomy_always_streams (e : HandlerErr) (envOk : Bool)
    (clientId redirectUrl : String) :
    (copilot_error_response e envOk clientId redirectUrl).headers
        = get_sse_headers
    ∧ ∃ msg, (copilot_error_response e envOk clientId redirectUrl).body
        = "data: " ++ msg ++ "\n\n" := by
  cases e <;> first
    | exact ⟨rfl, _, rfl⟩
    | · constructor
        · cases envOk <;> rfl
        · cases envOk
          · exact ⟨"An exception was raised. See the logs for more details.",
              rfl⟩
          · exact ⟨_, rfl⟩

/-! ### Tolerant tool-handler wrappers (`domain/tools/wrapper/*.py`)

The Python handlers accept `**kwargs`; the wrapper body logs each unexpected
key (when a logger was supplied) and passes only the declared parameters to
the callback.  Calls are modelled as the declared parameters plus an explicit
list of extra keyword arguments; emitted log messages are returned as data.
The second component of the f-string in the log call is the literal text
`Value: \x7bvalue\x7d` (the source writes it without the `f` sticker). -/

def unexpected_key_logs (kwargs : List (String × String)) :
    List (String × String) :=
  kwargs.map (fun kv => ("Unexpected Key: " ++ kv.1, "Value: \x7bvalue\x7d"))

/-- `deploy_release` (`deploy_release.py` lines 2-29). -/
def deploy_release {α : Type}
    (callback : String → Option String → Option String → Option String →
      Option String → Option String → α)
    (query : String) (loggingPresent : Bool)
    (space_name project_name release_version environment_name
      tenant_name : Option String)
    (kwargs : List (String × String)) : α × List (String × String) :=
  let enterLogs := if loggingPresent then [("Enter:", "deploy_release")] else []
  let kwargLogs := if loggingPresent then unexpected_key_logs kwargs else []
  (callback query space_name project_name release_version environment_name
     tenant_name,
   enterLogs ++ kwargLogs)

/-- `octolint_unused_projects` (`octolint_unused_projects.py` lines 8-22). -/
def octolint_unused_projects {α : Type} (callback : Option String → α)
    (loggingPresent : Bool) (space : Option String)
    (kwargs : List (String × String)) : α × List (String × String) :=
  (callback space,
   if loggingPresent then unexpected_key_logs kwargs else [])

/-- C6: both wrappers are total on arbitrary extra keyword arguments, the
value passed to the callback is the same with or without them, and the extra
keys are only ever logged (and only when a logger is supplied). -/
theorem wrappers_tolerate_unknown_kwargs {α β : Type}
    (callback : String → Option String → Option String → Option String →
      Option String → Option String → α)
    (ocallback : Option String → β) (query : String) (loggingPresent : Bool)
    (space_name project_name release_version environment_name tenant_name
       space : Option String)
    (kwargs : List (String × String)) :
    (deploy_release callback query loggingPresent space_name project_name
        release_version environment_name tenant_name kwargs).1
      = (deploy_release callback query loggingPresent space_name project_name
          release_version environment_name tenant_name []).1
    ∧ (octolint_unused_projects ocallback loggingPresent space kwargs).1
      = (octolint_unused_projects ocallback loggingPresent space []).1
    ∧ (deploy_release callback query loggingPresent space_name project_name
        release_version environment_name tenant_name kwargs).2
      = (if loggingPresent then
          [("Enter:", "deploy_release")] ++ unexpected_key_logs kwargs
         else [])
    ∧ (octolint_unused_projects ocallback loggingPresent space kwargs).2
      = (if loggingPresent then unexpected_key_logs kwargs else []) := by
  refine ⟨rfl, rfl, ?_, rfl⟩
  cases loggingPresent <;> simp [deploy_release]

/-! ### `dictionary_has_value` (`domain/sanitizers/dictionary_sanitizer.py`) -/

/-- A Python value as far as `dictionary_has_value` distinguishes them. -/
inductive PyVal where
  | none
  | bool (b : Bool)
  | int (n : Int)
  | str (s : String)
  | list (xs : List PyVal)
  | dict (entries : List (String × PyVal))

/-- Python truthiness for the modelled values. -/
def pyTruthy : PyVal → Bool
  | PyVal.none => false
  | PyVal.bool b => b
  | PyVal.int n => n != 0
  | PyVal.str s => !s.isEmpty
  | PyVal.list xs => !xs.isEmpty
  | PyVal.dict es => !es.isEmpty

/-- Python `len`, `Option.none` standing for the `TypeError` on unsized
values. -/
def pyLen : PyVal → Option Nat
  | PyVal.str s => some s.length
  | PyVal.list xs => some xs.length
  | PyVal.dict es => some es.length
  | _ => Option.none

/-- `dictionary[key]`: first matching key, if any (a Python `dict` has unique
keys). -/
def dictLookup (key : String) : List (String × PyVal) → Option PyVal
  | [] => Option.none
  | kv :: rest => if kv.1 == key then some kv.2 else dictLookup key rest

inductive PyErr where
  | keyError
  | typeError
deriving Repr, DecidableEq

/-- `dictionary_has_value(key, dictionary)`: `False` for `None`; for a `dict`,
`dictionary[key]` raises `KeyError` when the key is missing, else `False` on a
falsy value and `len(value) > 0` on a truthy one (`TypeError` when unsized);
any other value falls off the end of the function and returns `None`. -/
def dictionary_has_value (key : String) (dictionary : PyVal) :
    Except PyErr (Option Bool) :=
  match dictionary with
  | PyVal.none => Except.ok (some false)
  | PyVal.dict entries =>
    match dictLookup key entries with
    | Option.none => Except.error PyErr.keyError
    | some value =>
      if pyTruthy value = false then Except.ok (some false)
      else
        match pyLen value with
        | some n => Except.ok (some (decide (0 < n)))
        | Option.none => Except.error PyErr.typeError
  | _ => Except.ok Option.none

/-- C9: `dictionary_has_value` returns `False` on `None`; on a dict missing
the key it raises `KeyError` instead of returning `False`; and on a value
that is neither `None` nor a dict it returns Python `None`, not a boolean. -/
theorem dictionary_has_value_behavior (k : String) :
    dictionary_has_value k PyVal.none = Except.ok (some false)
    ∧ (∀ entries, dictLookup k entries = Option.none →
        dictionary_has_value k (PyVal.dict entries)
          = Except.error PyErr.keyError)
    ∧ (∀ v : PyVal, v ≠ PyVal.none → (∀ entries, v ≠ PyVal.dict entries) →
        dictionary_has_value k v = Except.ok Option.none) := by
  refine ⟨rfl, ?_, ?_⟩
  · intro entries h
    simp [dictionary_has_value, h]
  · intro v hnone hdict
    cases v with
    | none => exact absurd rfl hnone
    | dict es => exact absurd rfl (hdict es)
    | bool b => rfl
    | int n => rfl
    | str s => rfl
    | list xs => rfl

/-- Witness for C9 at concrete values: a `None` dictionary, a dict without
the key, and an integer. -/
theorem dictionary_has_value_behavior_witness :
    dictionary_has_value "Name" PyVal.none = Except.ok (some false)
    ∧ dictionary_has_value "Name" (PyVal.dict [("Other", PyVal.str "x")])
        = Except.error PyErr.keyError
    ∧ dictionary_has_value "Name" (PyVal.int 3) = Except.ok Option.none :=
  ⟨(dictionary_has_value_behavior "Name").1,
   (dictionary_has_value_behavior "Name").2.1 [("Other", PyVal.str "x")] rfl,
   (dictionary_has_value_behavior "Name").2.2 (PyVal.int 3)
     (fun h => PyVal.noConfusion h) (fun _ h => PyVal.noConfusion h)⟩

/-! ### Query extraction and the empty-query guard
(`extract_query` lines 1019-1053, `copilot_handler_internal` lines 960-974) -/

/-- Python's `str.strip()` with no arguments: drop leading and trailing
whitespace.  Query text is modelled as a character list. -/
def pyStrip (s : List Char) : List Char :=
  ((s.dropWhile Char.isWhitespace).reverse.dropWhile Char.isWhitespace).reverse

/-- One chat message from the Copilot request body: `content` is absent or a
string. -/
structure PyMessage where
  content : Option (List Char)
deriving Repr, DecidableEq

/-- The outcome of `json.loads(body_raw)` plus the `'messages' in body` check:
the parse can raise (malformed body, or a body on which the key test raises),
or produce a body whose `messages` entry is absent (`Option.none`) or a list. -/
inductive BodyParse where
  | malformed
  | parsed (messages : Option (List PyMessage))
deriving Repr, DecidableEq

/-- An inbound HTTP request as `extract_query` consumes it: the optional
`message` query parameter, the raw body, and the parse oracle for the body
(the `json` module is an external collaborator). -/
structure HttpRequest where
  message : Option (List Char)
  body_raw : List Char
  body_parse : BodyParse
deriving Repr, DecidableEq

/-- Lines 1034-1053: the body path of `extract_query`.  An empty or
whitespace-only body yields `""`; a malformed body is caught and yields `""`;
a parsed body yields the stripped `content` of the last message when the
`messages` list is non-empty and its last entry has a `content` key, and `""`
in every other case. -/
def extract_query_from_body (req : HttpRequest) : List Char :=
  if req.body_raw.isEmpty || (pyStrip req.body_raw).isEmpty then []
  else
    match req.body_parse with
    | BodyParse.malformed => []
    | BodyParse.parsed Option.none => []
    | BodyParse.parsed (some msgs) =>
      if msgs.length != 0 then
        match msgs.getLast? with
        | some m =>
          match m.content with
          | some c => pyStrip c
          | Option.none => []
        | Option.none => []
      else []

/-- Lines 1019-1053: a truthy `message` parameter wins and is stripped;
otherwise the query comes from the body. -/
def extract_query (req : HttpRequest) : List Char :=
  match req.message with
  | some q => if q.isEmpty then extract_query_from_body req else pyStrip q
  | Option.none => extract_query_from_body req

/-- The canned sample-question response of lines 964-967. -/
def sample_question_response : HttpResponse :=
  { body := convert_to_sse_response
      "Ask a question like \"What are the projects in the space called Default?\"",
    status := 200, headers := get_sse_headers }

/-- The `try` body of `copilot_handler_internal` (lines 960-974): extract the
query; when it strips to nothing, return the canned sample-question SSE
response; otherwise dispatch to `llm_tool_query(...).call_function()`
(modelled by the `dispatch` oracle) and stream its result.  The boolean
records whether the dispatcher (and hence any tool handler) was invoked. -/
def copilot_handler_internal (req : HttpRequest)
    (dispatch : List Char → String) : HttpResponse × Bool :=
  let query := extract_query req
  if (pyStrip query).isEmpty then
    (sample_question_response, false)
  else
    ({ body := convert_to_sse_response (dispatch query), status := 200,
       headers := get_sse_headers }, true)

/-- C10: whenever the extracted query is empty or whitespace-only, the
handler returns the canned sample-question SSE response and never invokes the
language-model dispatch or any tool handler. -/
theorem empty_query_returns_sample_response (req : HttpRequest)
    (dispatch : List Char → String)
    (h : (pyStrip (extract_query req)).isEmpty = true) :
    copilot_handler_internal req dispatch = (sample_question_response, false) := by
  simp [copilot_handler_internal, h]

/-- Witness for C10: no `message` parameter, a whitespace-only body. -/
theorem empty_query_returns_sample_response_witness :
    copilot_handler_internal
        { message := Option.none, body_raw := [' ', ' '],
          body_parse := BodyParse.malformed }
        (fun _ => "answer")
      = (sample_question_response, false) :=
  empty_query_returns_sample_response
    { message := Option.none, body_raw := [' ', ' '],
      body_parse := BodyParse.malformed }
    (fun _ => "answer") (by decide)

end OctopusCopilot
